import Mathlib

/-!
Verification of the orchestration layer of OpenCppCoverage
(`src/OpenCppCoverage/OpenCppCoverage.cpp`) against its design
specification, via a shallow embedding in Lean 4.

The file under `src/` is the top-level orchestration: option handling,
the inner `Run(const cov::Options&)` pipeline (load input snapshots,
run the instrumented target, merge, optionally aggregate by file,
export, surface the target's exit code) and the outer
`OpenCppCoverage::Run` boundary (parse, try/catch, warning display,
optional pause).  Collaborators that live outside `src/`
(`CoverageDataMerger`, the binary serializer, `CodeCoverageRunner`,
the exporters' default paths, `OptionsParser`) are either parameters of
the embedding (an `Env` of external functions) or, where a claim is
about their contract, modelled from the specification and marked as
such in their doc comments.
-/

namespace OpenCppCoverage

/-! ## Coverage data model (CppCoverage::CoverageData and friends) -/

/-- A source line of the coverage model: line number plus hit flag. -/
structure LineCoverage where
  lineNumber : Nat
  hasBeenExecuted : Bool
deriving DecidableEq, Repr

/-- A source file of the coverage model: path plus its lines. -/
structure FileCoverage where
  path : String
  lines : List LineCoverage
deriving DecidableEq, Repr

/-- A binary module of the coverage model: path plus its files. -/
structure ModuleCoverage where
  path : String
  files : List FileCoverage
deriving DecidableEq, Repr

/-- Model of `cov::CoverageData`: modules plus the instrumented process's exit code. -/
structure CoverageData where
  modules : List ModuleCoverage
  exitCode : Int
deriving DecidableEq, Repr

/-! ## Options (CppCoverage::Options), as consumed by `Run` -/

/-- Target start information: executable path and arguments. -/
structure StartInfo where
  path : String
  arguments : List String
deriving DecidableEq, Repr

/-- Model of `cov::LogLevel` (Normal is the default; see `InitLogger`). -/
inductive LogLevel
  | Normal
  | Verbose
  | Quiet
deriving DecidableEq, Repr

/-- Selected / excluded wildcard patterns (`cov::Patterns`). -/
structure Patterns where
  selectedPatterns : List String
  excludedPatterns : List String
deriving DecidableEq, Repr

/-- Model of `cov::CoverageFilterSettings` (module and source patterns). -/
structure CoverageFilterSettings where
  modulePatterns : Patterns
  sourcePatterns : Patterns
deriving DecidableEq, Repr

/-- One unified-diff source with its optional root folder. -/
structure UnifiedDiffSettings where
  unifiedDiffPath : String
  rootDiffFolder : Option String
deriving DecidableEq, Repr

/-- One ordered (start, substitute) path-rewrite rule. -/
structure SubstitutePdbSourcePath where
  startPath : String
  substitutePath : String
deriving DecidableEq, Repr

/-- Model of `cov::OptionsExportType`: the three exporter kinds registered in `Export`. -/
inductive OptionsExportType
  | Html
  | Cobertura
  | Binary
deriving DecidableEq, Repr

/-- One requested export: its kind and optional explicit output path. -/
structure OptionsExport where
  exportType : OptionsExportType
  outputPath : Option String
deriving DecidableEq, Repr

/-- The already-parsed option set handed to the inner `Run`. -/
structure Options where
  startInfo : Option StartInfo
  logLevel : LogLevel
  inputCoveragePaths : List String
  exports : List OptionsExport
  modulePatterns : Patterns
  sourcePatterns : Patterns
  unifiedDiffSettingsCollection : List UnifiedDiffSettings
  excludedLineRegexes : List String
  substitutePdbSourcePaths : List SubstitutePdbSourcePath
  coverChildrenModeEnabled : Bool
  continueAfterCppExceptionModeEnabled : Bool
  aggregateByFileModeEnabled : Bool
  optimizedBuildSupportEnabled : Bool
  plugingModeEnabled : Bool
deriving DecidableEq, Repr

/-- Model of `cov::RunCoverageSettings` as built in `Run` (lines 142-152). -/
structure RunCoverageSettings where
  startInfo : StartInfo
  coverageFilterSettings : CoverageFilterSettings
  unifiedDiffSettingsCollection : List UnifiedDiffSettings
  excludedLineRegexes : List String
  substitutePdbSourcePaths : List SubstitutePdbSourcePath
  coverChildren : Bool
  continueAfterCppException : Bool
  maxUnmatchPathsForWarning : Nat
  optimizedBuildSupport : Bool
deriving DecidableEq, Repr

/-- Value of `std::numeric_limits<size_t>::max()` for the 64-bit build. -/
def sizeTMax : Nat := 2 ^ 64 - 1

/-- Log severities of the trivial boost logger used by `Tools/Log`. -/
inductive LogSeverity
  | debug
  | info
  | warning
  | error
deriving DecidableEq, Repr

/-- Model of `InitLogger` (lines 107-119): minimum severity selected per log level. -/
def initLoggerMinSeverity (l : LogLevel) : LogSeverity :=
  match l with
  | LogLevel.Verbose => LogSeverity.debug
  | LogLevel.Quiet => LogSeverity.error
  | LogLevel.Normal => LogSeverity.info

/-! ## Path helpers (`fs::path::filename` and `replace_extension("")`)

These model the two `std::filesystem` operations used by
`GetDefaultPathPrefix` for ordinary file paths (both `/` and `\` count
as directory separators, as on the Windows build). -/

/-- Is `c` a directory separator of the target platform? -/
def isPathSeparator (c : Char) : Bool := c = '/' || c = '\\'

/-- Model of `fs::path::filename()`: the component after the last separator. -/
def pathFilename (p : String) : String :=
  String.mk (p.toList.foldl (fun acc c => if isPathSeparator c then [] else acc ++ [c]) [])

/-- Index of the last `.` of the filename, if any. -/
def lastDotIdx (l : List Char) : Option Nat :=
  (((l.enum).filter (fun q => q.2 = '.')).map (fun q => q.1)).getLast?

/-- Model of `fs::path::replace_extension("")` on a filename: drops the extension,
which starts at the rightmost period, except for the special filenames
`.`/`..` and a period in first position (`.profile` has no extension). -/
def dropPathExtension (f : String) : String :=
  if f = "." || f = ".." then f
  else
    match lastDotIdx f.toList with
    | none => f
    | some 0 => f
    | some i => String.mk (f.toList.take i)

/-- Model of `GetDefaultPathPrefix` (lines 48-61): the target executable's filename
with its extension removed when a target is configured, else the literal
`CoverageOutput`. -/
def GetDefaultPathPrefix (options : Options) : String :=
  match options.startInfo with
  | some startInfo => dropPathExtension (pathFilename startInfo.path)
  | none => "CoverageOutput"

/-! ## The pipeline (`Run`) and its observable trace -/

/-- Settings value of type `cov::RunCoverageSettings` built at
lines 139-152, including the unmatched-path warning threshold. -/
def mkRunCoverageSettings (options : Options) (startInfo : StartInfo) : RunCoverageSettings :=
  { startInfo := startInfo
    coverageFilterSettings :=
      { modulePatterns := options.modulePatterns, sourcePatterns := options.sourcePatterns }
    unifiedDiffSettingsCollection := options.unifiedDiffSettingsCollection
    excludedLineRegexes := options.excludedLineRegexes
    substitutePdbSourcePaths := options.substitutePdbSourcePaths
    coverChildren := options.coverChildrenModeEnabled
    continueAfterCppException := options.continueAfterCppExceptionModeEnabled
    maxUnmatchPathsForWarning :=
      if options.logLevel = LogLevel.Verbose then sizeTMax else 30
    optimizedBuildSupport := options.optimizedBuildSupportEnabled }

/-- The externally observable events `Run` performs, in order. -/
inductive Event
  | loadCoverageFile (path : String)
  | logStartProgram
  | runTarget (settings : RunCoverageSettings)
  | doExport (exp : OptionsExport) (output : String) (data : CoverageData)
  | logExitCodeError (code : Int)
deriving DecidableEq, Repr

/-- Severity of the log message an event writes (none for non-log events);
`LOG_INFO` at lines 100 and 131, `LOG_ERROR` at line 167. -/
def eventSeverity : Event → Option LogSeverity
  | Event.loadCoverageFile _ => some LogSeverity.info
  | Event.logStartProgram => some LogSeverity.info
  | Event.runTarget _ => none
  | Event.doExport _ _ _ => none
  | Event.logExitCodeError _ => some LogSeverity.error

/-- The external collaborators `Run` calls into: the binary snapshot
deserializer, the instrumentation engine, and each exporter's default
output path (`IExporter::GetDefaultPath`). -/
structure Env where
  deserialize : String → CoverageData
  runCoverage : RunCoverageSettings → CoverageData
  getDefaultPath : OptionsExportType → String → String

/-- Output path of one export entry (line 84): the explicit output path
when configured, else the selected exporter's default path built from
`GetDefaultPathPrefix`. -/
def exportOutput (env : Env) (options : Options) (e : OptionsExport) : String :=
  match e.outputPath with
  | some p => p
  | none => env.getDefaultPath e.exportType (GetDefaultPathPrefix options)

/-- Model of `Export` (lines 64-88): one export per requested entry, in
order, each writing the coverage model to its output path. -/
def exportEvents (env : Env) (options : Options) (coverage : CoverageData) : List Event :=
  options.exports.map fun e => Event.doExport e (exportOutput env options e) coverage

/-! ## Coverage data merging (CppCoverage::CoverageDataMerger)

`CoverageDataMerger::Merge` and `MergeFileCoverage` are declared in
`CppCoverage/CoverageDataMerger.hpp`, whose implementation is not part of
the files under verification; they are modelled from the specification. -/

/-- Is line `n` of file `f` of module `m` marked executed in `cd`? -/
def cdLineHit (cd : CoverageData) (m f : String) (n : Nat) : Bool :=
  cd.modules.any fun M =>
    M.path = m && M.files.any fun F =>
      F.path = f && F.lines.any fun L =>
        L.lineNumber = n && L.hasBeenExecuted

/-- Is line `n` of file `f` marked executed in `cd`, in any module? -/
def fileLineHit (cd : CoverageData) (f : String) (n : Nat) : Bool :=
  cd.modules.any fun M =>
    M.files.any fun F =>
      F.path = f && F.lines.any fun L =>
        L.lineNumber = n && L.hasBeenExecuted

/-- The module paths occurring in a list of coverage data, in first-seen
order without repetition. -/
def allModulePaths (l : List CoverageData) : List String :=
  (l.flatMap fun cd => cd.modules.map fun M => M.path).dedup

/-- The file paths occurring under modules named `m`, in first-seen order. -/
def allFilePaths (l : List CoverageData) (m : String) : List String :=
  (l.flatMap fun cd =>
    (cd.modules.filter fun M => M.path = m).flatMap fun M =>
      M.files.map fun F => F.path).dedup

/-- The line numbers occurring in files named `f` under modules named `m`. -/
def allLineNumbers (l : List CoverageData) (m f : String) : List Nat :=
  (l.flatMap fun cd =>
    (cd.modules.filter fun M => M.path = m).flatMap fun M =>
      (M.files.filter fun F => F.path = f).flatMap fun F =>
        F.lines.map fun L => L.lineNumber).dedup

/-- Modelled from the spec: `CoverageDataMerger::Merge` (its implementation
is not among the verified files).  "Merge(sequence of CoverageData) ->
CoverageData", combining per (module, file, line) identity under the
"hit if hit anywhere" rule, with grouping deterministic in the input
order.  The spec does not assign the merged container an exit code (the
pipeline takes the exit code from the runner's result before merging), so
the merged exit code is 0, the value of a run with no target. -/
def mergeCoverageDatas (l : List CoverageData) : CoverageData :=
  { modules := (allModulePaths l).map fun m =>
      { path := m
        files := (allFilePaths l m).map fun f =>
          { path := f
            lines := (allLineNumbers l m f).map fun n =>
              { lineNumber := n
                hasBeenExecuted := l.any fun cd => cdLineHit cd m f n } } }
    exitCode := 0 }

/-- The file paths occurring anywhere in `cd`, in first-seen order. -/
def allFilePathsOf (cd : CoverageData) : List String :=
  (cd.modules.flatMap fun M => M.files.map fun F => F.path).dedup

/-- The line numbers occurring in any file of `cd` named `f`. -/
def fileLineNumbers (cd : CoverageData) (f : String) : List Nat :=
  (cd.modules.flatMap fun M =>
    (M.files.filter fun F => F.path = f).flatMap fun F =>
      F.lines.map fun L => L.lineNumber).dedup

/-- Modelled from the spec: `CoverageDataMerger::MergeFileCoverage` (its
implementation is not among the verified files).  It "collapses distinct
Module entries that reference the same canonical File into one aggregated
per-file view", leaving the underlying hit data unchanged: each canonical
file path becomes one entry carrying the union of that file's lines, a
line being hit iff it was hit under any module. -/
def MergeFileCoverage (cd : CoverageData) : CoverageData :=
  { modules := (allFilePathsOf cd).map fun f =>
      { path := f
        files := [{ path := f
                    lines := (fileLineNumbers cd f).map fun n =>
                      { lineNumber := n
                        hasBeenExecuted := fileLineHit cd f n } }] }
    exitCode := cd.exitCode }

/-! ## The inner pipeline `Run(const cov::Options&)` (lines 122-169) -/

/-- Coverage data gathered before merging (the `coveraDatas` vector at
line 159): the deserialized input snapshots, followed by the target's
freshly collected run result when a target is configured. -/
def collectedCoverageDatas (env : Env) (options : Options) : List CoverageData :=
  let coveraDatas := options.inputCoveragePaths.map env.deserialize
  match options.startInfo with
  | some startInfo =>
      coveraDatas ++ [env.runCoverage (mkRunCoverageSettings options startInfo)]
  | none => coveraDatas

/-- The merged (and, when aggregate-by-file mode is on, per-file
aggregated) coverage model `Run` hands to `Export` (lines 157-164). -/
def finalCoverageData (env : Env) (options : Options) : CoverageData :=
  let coverageData := mergeCoverageDatas (collectedCoverageDatas env options)
  if options.aggregateByFileModeEnabled then MergeFileCoverage coverageData
  else coverageData

/-- The inner `Run` (lines 122-169): load every input snapshot, log the
start message, run the target when one is configured, merge, optionally
aggregate by file, export, log an error for a non-zero target exit code,
and return that exit code.  The result is the ordered event trace paired
with the returned exit code. -/
def Run (env : Env) (options : Options) : List Event × Int :=
  let loadEvents := options.inputCoveragePaths.map Event.loadCoverageFile
  let (runEvents, exitCode) :=
    match options.startInfo with
    | some startInfo =>
        let settings := mkRunCoverageSettings options startInfo
        ([Event.runTarget settings], (env.runCoverage settings).exitCode)
    | none => ([], 0)
  (loadEvents ++ [Event.logStartProgram] ++ runEvents
    ++ exportEvents env options (finalCoverageData env options)
    ++ (if exitCode ≠ 0 then [Event.logExitCodeError exitCode] else []),
   exitCode)

/-! ## The outer boundary `OpenCppCoverage::Run` (lines 173-207) -/

/-- Modelled from the spec: `FailureExitCode` is declared in
`OpenCppCoverage.hpp`, which is not among the verified files; the spec
requires failures to map to a non-zero process exit code. -/
def FailureExitCode : Int := -1

/-- What the outer `OpenCppCoverage::Run` did: its return status, whether
the inner pipeline was entered, whether a top-level error was logged by a
catch handler, whether accumulated warnings were displayed, and whether
the interactive pause ran. -/
structure OuterRunResult where
  status : Int
  innerRan : Bool
  errorLogged : Bool
  warningsDisplayed : Bool
  paused : Bool
deriving DecidableEq, Repr

/-- The outer `OpenCppCoverage::Run` (lines 173-207), with the parse
result and the inner pipeline abstracted: when parsing yields no options
the failure exit code is returned at once; otherwise the inner pipeline
runs under try/catch, any exception is logged and leaves the failure
status, and warnings are displayed (and the plugin-mode pause runs)
either way. -/
def outerRun (parsed : Option Options) (inner : Options → Except String Int) :
    OuterRunResult :=
  match parsed with
  | none =>
      { status := FailureExitCode, innerRan := false, errorLogged := false
        warningsDisplayed := false, paused := false }
  | some options =>
      match inner options with
      | Except.ok s =>
          { status := s, innerRan := true, errorLogged := false
            warningsDisplayed := true, paused := options.plugingModeEnabled }
      | Except.error _ =>
          { status := FailureExitCode, innerRan := true, errorLogged := true
            warningsDisplayed := true, paused := options.plugingModeEnabled }

/-- The composed entry point: parse result fed to the outer boundary with
the actual (non-throwing) inner pipeline. -/
def fullRun (env : Env) (parsed : Option Options) : OuterRunResult :=
  outerRun parsed fun options => Except.ok (Run env options).2

/-! ## The binary snapshot format (Exporter::BinaryExporter /
CoverageDataDeserializer)

Modelled from the spec: the portable binary snapshot format lives in
`Exporter/Binary`, whose implementation is not among the verified files.
The spec fixes only its contract — "serializing a Coverage Data Model and
deserializing it reproduces an identical model (same modules/files/lines/
hit flags)" — so the model below is a concrete length-prefixed word
encoding of the `CoverageData` shape. -/

/-- Encoding of a boolean as one word. -/
def encodeBool (b : Bool) : List Nat := [cond b 1 0]

/-- Encoding of an integer as sign word plus magnitude word. -/
def encodeInt (i : Int) : List Nat := [if i < 0 then 1 else 0, i.natAbs]

/-- Encoding of a string as length word plus one word per character. -/
def encodeString (s : String) : List Nat :=
  s.toList.length :: s.toList.map Char.toNat

/-- Encoding of a list as length word plus the encoded elements. -/
def encodeList (enc : α → List Nat) (l : List α) : List Nat :=
  l.length :: l.flatMap enc

/-- Encoding of one line record. -/
def encodeLine (L : LineCoverage) : List Nat :=
  L.lineNumber :: encodeBool L.hasBeenExecuted

/-- Encoding of one file record. -/
def encodeFile (F : FileCoverage) : List Nat :=
  encodeString F.path ++ encodeList encodeLine F.lines

/-- Encoding of one module record. -/
def encodeModule (M : ModuleCoverage) : List Nat :=
  encodeString M.path ++ encodeList encodeFile M.files

/-- Serialization of a whole coverage model (BinaryExporter::Export). -/
def serializeCoverageData (cd : CoverageData) : List Nat :=
  encodeInt cd.exitCode ++ encodeList encodeModule cd.modules

/-- Decoder of a boolean. -/
def decodeBool : List Nat → Option (Bool × List Nat)
  | [] => none
  | c :: r => if c = 0 then some (false, r) else if c = 1 then some (true, r) else none

/-- Decoder of an integer. -/
def decodeInt : List Nat → Option (Int × List Nat)
  | s :: m :: r =>
      if s = 0 then some ((m : Int), r)
      else if s = 1 then some (-(m : Int), r) else none
  | _ => none

/-- Decoder of `k` characters. -/
def decodeChars : Nat → List Nat → Option (List Char × List Nat)
  | 0, r => some ([], r)
  | _ + 1, [] => none
  | k + 1, c :: r =>
      match decodeChars k r with
      | some (cs, r') => some (Char.ofNat c :: cs, r')
      | none => none

/-- Decoder of a string. -/
def decodeString : List Nat → Option (String × List Nat)
  | [] => none
  | k :: r =>
      match decodeChars k r with
      | some (cs, r') => some (String.mk cs, r')
      | none => none

/-- Decoder of `k` elements with the element decoder `dec`. -/
def decodeVec (dec : List Nat → Option (α × List Nat)) :
    Nat → List Nat → Option (List α × List Nat)
  | 0, r => some ([], r)
  | k + 1, r =>
      match dec r with
      | some (a, r') =>
          match decodeVec dec k r' with
          | some (as, r'') => some (a :: as, r'')
          | none => none
      | none => none

/-- Decoder of a length-prefixed list. -/
def decodeList (dec : List Nat → Option (α × List Nat)) :
    List Nat → Option (List α × List Nat)
  | [] => none
  | k :: r => decodeVec dec k r

/-- Decoder of one line record. -/
def decodeLine : List Nat → Option (LineCoverage × List Nat)
  | [] => none
  | n :: r =>
      match decodeBool r with
      | some (b, r') => some ({ lineNumber := n, hasBeenExecuted := b }, r')
      | none => none

/-- Decoder of one file record. -/
def decodeFile (l : List Nat) : Option (FileCoverage × List Nat) :=
  match decodeString l with
  | some (p, r) =>
      match decodeList decodeLine r with
      | some (ls, r') => some ({ path := p, lines := ls }, r')
      | none => none
  | none => none

/-- Decoder of one module record. -/
def decodeModule (l : List Nat) : Option (ModuleCoverage × List Nat) :=
  match decodeString l with
  | some (p, r) =>
      match decodeList decodeFile r with
      | some (fs, r') => some ({ path := p, files := fs }, r')
      | none => none
  | none => none

/-- Deserialization of a whole snapshot
(Exporter::CoverageDataDeserializer::Deserialize): the full word stream
must be consumed. -/
def deserializeCoverageData (l : List Nat) : Option CoverageData :=
  match decodeInt l with
  | some (i, r) =>
      match decodeList decodeModule r with
      | some (ms, []) => some { modules := ms, exitCode := i }
      | _ => none
  | none => none

/-! ## Concrete fixtures used by witnesses and counterexamples -/

/-- A one-module, one-file, two-line coverage model with the given exit
code (line 1 hit, line 2 not hit). -/
def sampleCoverageData (code : Int) : CoverageData :=
  { modules := [{ path := "m.exe"
                  files := [{ path := "a.cpp"
                              lines := [{ lineNumber := 1, hasBeenExecuted := true },
                                        { lineNumber := 2, hasBeenExecuted := false }] }] }]
    exitCode := code }

/-- A concrete external environment: every input snapshot deserializes to
a clean run, the instrumented target exits with code 1, and each
exporter's default path appends a fixed suffix to the stem. -/
def sampleEnv : Env :=
  { deserialize := fun _ => sampleCoverageData 0
    runCoverage := fun _ => sampleCoverageData 1
    getDefaultPath := fun _ stem => stem ++ ".report" }

/-- A concrete target start information. -/
def sampleStartInfo : StartInfo :=
  { path := "C:\\tests\\MyApp.exe", arguments := [] }

/-- Concrete options with every feature off and no target. -/
def baseOptions : Options :=
  { startInfo := none
    logLevel := LogLevel.Normal
    inputCoveragePaths := []
    exports := []
    modulePatterns := { selectedPatterns := ["*"], excludedPatterns := [] }
    sourcePatterns := { selectedPatterns := ["*"], excludedPatterns := [] }
    unifiedDiffSettingsCollection := []
    excludedLineRegexes := []
    substitutePdbSourcePaths := []
    coverChildrenModeEnabled := false
    continueAfterCppExceptionModeEnabled := false
    aggregateByFileModeEnabled := false
    optimizedBuildSupportEnabled := false
    plugingModeEnabled := false }

/-- Concrete options that run a target and ask for one default-path
HTML export. -/
def targetOptions : Options :=
  { baseOptions with
      startInfo := some sampleStartInfo
      exports := [{ exportType := OptionsExportType.Html, outputPath := none }] }

/-- Concrete merge-only options: no target, two input snapshots, one
binary export to an explicit path. -/
def mergeOnlyOptions : Options :=
  { baseOptions with
      inputCoveragePaths := ["run1.cov", "run2.cov"]
      exports := [{ exportType := OptionsExportType.Binary, outputPath := some "out.cov" }] }

/-! # Theorems -/

/-- Shape of the `Run` trace when a target is configured. -/
theorem run_eq_of_startInfo (env : Env) (options : Options) (startInfo : StartInfo)
    (h : options.startInfo = some startInfo) :
    Run env options =
      (options.inputCoveragePaths.map Event.loadCoverageFile
        ++ [Event.logStartProgram]
        ++ [Event.runTarget (mkRunCoverageSettings options startInfo)]
        ++ exportEvents env options (finalCoverageData env options)
        ++ (if (env.runCoverage (mkRunCoverageSettings options startInfo)).exitCode ≠ 0
            then [Event.logExitCodeError
                    ((env.runCoverage (mkRunCoverageSettings options startInfo)).exitCode)]
            else []),
       (env.runCoverage (mkRunCoverageSettings options startInfo)).exitCode) := by
  simp only [Run, h]

/-- Shape of the `Run` trace in merge-only mode (no target). -/
theorem run_eq_of_no_startInfo (env : Env) (options : Options)
    (h : options.startInfo = none) :
    Run env options =
      (options.inputCoveragePaths.map Event.loadCoverageFile
        ++ [Event.logStartProgram]
        ++ exportEvents env options (finalCoverageData env options),
       0) := by
  simp only [Run, h]
  simp

/-- Every `runTarget` event of the trace carries the settings built from
the configured target. -/
theorem runTarget_mem_elim (env : Env) (options : Options) (s : RunCoverageSettings)
    (h : Event.runTarget s ∈ (Run env options).1) :
    ∃ startInfo, options.startInfo = some startInfo ∧
      s = mkRunCoverageSettings options startInfo := by
  cases hsi : options.startInfo with
  | none =>
      rw [run_eq_of_no_startInfo env options hsi] at h
      simp [exportEvents, List.mem_append] at h
  | some startInfo =>
      refine ⟨startInfo, rfl, ?_⟩
      rw [run_eq_of_startInfo env options startInfo hsi] at h
      simp [exportEvents, List.mem_append] at h
      exact h

/-- Every `doExport` event of the trace exports the final merged model of
a requested export entry to its computed output path. -/
theorem doExport_mem_elim (env : Env) (options : Options) (e : OptionsExport)
    (out : String) (data : CoverageData)
    (h : Event.doExport e out data ∈ (Run env options).1) :
    e ∈ options.exports ∧ out = exportOutput env options e ∧
      data = finalCoverageData env options := by
  have hmain :
      ∃ a ∈ options.exports, a = e ∧ exportOutput env options a = out ∧
        finalCoverageData env options = data := by
    cases hsi : options.startInfo with
    | none =>
        rw [run_eq_of_no_startInfo env options hsi] at h
        simpa [exportEvents, List.mem_append] using h
    | some startInfo =>
        rw [run_eq_of_startInfo env options startInfo hsi] at h
        simpa [exportEvents, List.mem_append] using h
  obtain ⟨a, ha, rfl, hout, hdata⟩ := hmain
  exact ⟨ha, hout.symm, hdata.symm⟩

/-- C3: when option parsing yields no options, the outer `Run` returns the
failure exit code without entering the pipeline, displaying warnings or
pausing.  (theorem for claim C3) -/
theorem parse_failure_aborts_run (inner : Options → Except String Int) :
    outerRun none inner =
      { status := FailureExitCode, innerRan := false, errorLogged := false
        warningsDisplayed := false, paused := false } := rfl

/-- C4: an exception thrown by the inner pipeline is caught at the outer
boundary, logged as an error, turned into the non-zero failure exit code,
and the accumulated warnings are still displayed.  (theorem for claim C4) -/
theorem inner_exception_policy (options : Options) (msg : String)
    (inner : Options → Except String Int) (h : inner options = Except.error msg) :
    outerRun (some options) inner =
      { status := FailureExitCode, innerRan := true, errorLogged := true
        warningsDisplayed := true, paused := options.plugingModeEnabled } ∧
    FailureExitCode ≠ 0 := by
  refine ⟨?_, by decide⟩
  simp [outerRun, h]

/-- Witness for C4 at a concrete failing inner pipeline. -/
theorem inner_exception_policy_witness :
    outerRun (some baseOptions) (fun _ => Except.error "snapshot corrupted") =
      { status := FailureExitCode, innerRan := true, errorLogged := true
        warningsDisplayed := true, paused := baseOptions.plugingModeEnabled } ∧
    FailureExitCode ≠ 0 :=
  inner_exception_policy baseOptions "snapshot corrupted" (fun _ => Except.error "snapshot corrupted") rfl

/-- C2: the unmatched-path warning threshold handed to the coverage runner
is the maximum representable `size_t` exactly when the log level is
Verbose, and 30 for every other log level.  (theorem for claim C2) -/
theorem max_unmatch_paths_policy (env : Env) (options : Options) (s : RunCoverageSettings)
    (h : Event.runTarget s ∈ (Run env options).1) :
    (s.maxUnmatchPathsForWarning = sizeTMax ↔ options.logLevel = LogLevel.Verbose) ∧
    (options.logLevel ≠ LogLevel.Verbose → s.maxUnmatchPathsForWarning = 30) := by
  obtain ⟨startInfo, hsi, rfl⟩ := runTarget_mem_elim env options s h
  have h30 : (30 : Nat) ≠ sizeTMax := by decide
  constructor
  · constructor
    · intro hmax
      by_contra hne
      rw [mkRunCoverageSettings] at hmax
      simp only [if_neg hne] at hmax
      exact h30 hmax
    · intro hv
      simp [mkRunCoverageSettings, hv]
  · intro hne
    simp [mkRunCoverageSettings, hne]

/-- Witness for C2 at concrete non-Verbose options. -/
theorem max_unmatch_paths_policy_witness :
    ((mkRunCoverageSettings targetOptions sampleStartInfo).maxUnmatchPathsForWarning = sizeTMax ↔
        targetOptions.logLevel = LogLevel.Verbose) ∧
    (targetOptions.logLevel ≠ LogLevel.Verbose →
        (mkRunCoverageSettings targetOptions sampleStartInfo).maxUnmatchPathsForWarning = 30) :=
  max_unmatch_paths_policy sampleEnv targetOptions
    (mkRunCoverageSettings targetOptions sampleStartInfo) (by decide)

/-- C10: every export without an explicit output path goes to the selected
exporter's default path built from the target executable's filename with
its extension removed (or from `CoverageOutput` when no target is
configured), and an explicit output path is used verbatim.
(theorem for claim C10) -/
theorem default_output_path_policy (env : Env) (options : Options) (e : OptionsExport)
    (out : String) (data : CoverageData)
    (h : Event.doExport e out data ∈ (Run env options).1) :
    (∀ p, e.outputPath = some p → out = p) ∧
    (e.outputPath = none →
      (∀ startInfo, options.startInfo = some startInfo →
          out = env.getDefaultPath e.exportType
                  (dropPathExtension (pathFilename startInfo.path))) ∧
      (options.startInfo = none →
          out = env.getDefaultPath e.exportType "CoverageOutput")) := by
  obtain ⟨-, rfl, -⟩ := doExport_mem_elim env options e out data h
  constructor
  · intro p hp
    simp [exportOutput, hp]
  · intro hnone
    constructor
    · intro startInfo hsi
      simp [exportOutput, hnone, GetDefaultPathPrefix, hsi]
    · intro hsi
      simp [exportOutput, hnone, GetDefaultPathPrefix, hsi]

/-- Witness for C10 at a concrete default-path export of a configured
target. -/
theorem default_output_path_policy_witness :
    (∀ p, ({ exportType := OptionsExportType.Html, outputPath := none } :
        OptionsExport).outputPath = some p → "MyApp.report" = p) ∧
    (({ exportType := OptionsExportType.Html, outputPath := none } :
        OptionsExport).outputPath = none →
      (∀ startInfo, targetOptions.startInfo = some startInfo →
          "MyApp.report" = sampleEnv.getDefaultPath OptionsExportType.Html
                  (dropPathExtension (pathFilename startInfo.path))) ∧
      (targetOptions.startInfo = none →
          "MyApp.report" = sampleEnv.getDefaultPath OptionsExportType.Html "CoverageOutput")) :=
  default_output_path_policy sampleEnv targetOptions
    { exportType := OptionsExportType.Html, outputPath := none }
    "MyApp.report" (finalCoverageData sampleEnv targetOptions) (by decide)

/-- C1 counterexample: at a concrete run whose target exits with code 1,
the non-zero exit code is surfaced by a log message of error severity,
and no event of the whole run logs at warning severity, so the exit code
is not surfaced as a warning-level log message. -/
theorem exit_code_log_not_warning_level :
    (Run sampleEnv targetOptions).2 = 1 ∧
    Event.logExitCodeError 1 ∈ (Run sampleEnv targetOptions).1 ∧
    eventSeverity (Event.logExitCodeError 1) = some LogSeverity.error ∧
    (∀ e ∈ (Run sampleEnv targetOptions).1,
        eventSeverity e ≠ some LogSeverity.warning) := by decide

/-- C1 as amended: the exit code returned by `Run` (and by the outer
boundary) equals the instrumented target's exit code, a non-zero target
exit code is surfaced as an error-level log message, and the coverage
pipeline still completes: every requested export of the merged model is
performed and the target's code is returned unchanged.
(theorem for claim C1) -/
theorem exit_code_propagation (env : Env) (options : Options) (startInfo : StartInfo)
    (h : options.startInfo = some startInfo) :
    (Run env options).2 =
      (env.runCoverage (mkRunCoverageSettings options startInfo)).exitCode ∧
    (fullRun env (some options)).status =
      (env.runCoverage (mkRunCoverageSettings options startInfo)).exitCode ∧
    ((env.runCoverage (mkRunCoverageSettings options startInfo)).exitCode ≠ 0 →
      Event.logExitCodeError
          ((env.runCoverage (mkRunCoverageSettings options startInfo)).exitCode) ∈
        (Run env options).1 ∧
      eventSeverity (Event.logExitCodeError
          ((env.runCoverage (mkRunCoverageSettings options startInfo)).exitCode)) =
        some LogSeverity.error) ∧
    (∀ e ∈ options.exports,
      Event.doExport e (exportOutput env options e) (finalCoverageData env options) ∈
        (Run env options).1) := by
  have hrun := run_eq_of_startInfo env options startInfo h
  refine ⟨by rw [hrun], ?_, ?_, ?_⟩
  · show (outerRun (some options) _).status = _
    simp only [outerRun]
    rw [hrun]
  · intro hne
    refine ⟨?_, rfl⟩
    rw [hrun]
    simp [hne, List.mem_append]
  · intro e he
    rw [hrun]
    simp [exportEvents, List.mem_append]
    exact ⟨e, he, rfl, rfl⟩

/-- Witness for C1 (amended) at the concrete failing target. -/
theorem exit_code_propagation_witness :
    (Run sampleEnv targetOptions).2 =
      (sampleEnv.runCoverage (mkRunCoverageSettings targetOptions sampleStartInfo)).exitCode ∧
    (fullRun sampleEnv (some targetOptions)).status =
      (sampleEnv.runCoverage (mkRunCoverageSettings targetOptions sampleStartInfo)).exitCode ∧
    ((sampleEnv.runCoverage (mkRunCoverageSettings targetOptions sampleStartInfo)).exitCode ≠ 0 →
      Event.logExitCodeError
          ((sampleEnv.runCoverage (mkRunCoverageSettings targetOptions sampleStartInfo)).exitCode) ∈
        (Run sampleEnv targetOptions).1 ∧
      eventSeverity (Event.logExitCodeError
          ((sampleEnv.runCoverage (mkRunCoverageSettings targetOptions sampleStartInfo)).exitCode)) =
        some LogSeverity.error) ∧
    (∀ e ∈ targetOptions.exports,
      Event.doExport e (exportOutput sampleEnv targetOptions e)
          (finalCoverageData sampleEnv targetOptions) ∈
        (Run sampleEnv targetOptions).1) :=
  exit_code_propagation sampleEnv targetOptions sampleStartInfo rfl

/-- C5: the model handed to `Export` is the merge of the input snapshots
with the target's collected data whatever its exit code, every requested
export of it appears in the trace, and when the exit code is non-zero the
exit-code check (the error log) comes strictly after all exports: the
trace splits at an index `k` with every export before `k` and the
exit-code log alone after it.  (theorem for claim C5) -/
theorem export_precedes_exit_code_check (env : Env) (options : Options)
    (startInfo : StartInfo) (h : options.startInfo = some startInfo) :
    finalCoverageData env options =
      (if options.aggregateByFileModeEnabled
       then MergeFileCoverage (mergeCoverageDatas
              (options.inputCoveragePaths.map env.deserialize
                ++ [env.runCoverage (mkRunCoverageSettings options startInfo)]))
       else mergeCoverageDatas
              (options.inputCoveragePaths.map env.deserialize
                ++ [env.runCoverage (mkRunCoverageSettings options startInfo)])) ∧
    (∀ e ∈ options.exports,
      Event.doExport e (exportOutput env options e) (finalCoverageData env options) ∈
        (Run env options).1) ∧
    ((env.runCoverage (mkRunCoverageSettings options startInfo)).exitCode ≠ 0 →
      ∃ k, (Run env options).1.drop k =
            [Event.logExitCodeError
              ((env.runCoverage (mkRunCoverageSettings options startInfo)).exitCode)] ∧
          ∀ e ∈ options.exports,
            Event.doExport e (exportOutput env options e) (finalCoverageData env options) ∈
              (Run env options).1.take k) := by
  have hrun := run_eq_of_startInfo env options startInfo h
  refine ⟨?_, ?_, ?_⟩
  · simp only [finalCoverageData, collectedCoverageDatas, h]
  · intro e he
    rw [hrun]
    simp [exportEvents, List.mem_append]
    exact ⟨e, he, rfl, rfl⟩
  · intro hne
    refine ⟨(options.inputCoveragePaths.map Event.loadCoverageFile
        ++ [Event.logStartProgram]
        ++ [Event.runTarget (mkRunCoverageSettings options startInfo)]
        ++ exportEvents env options (finalCoverageData env options)).length, ?_, ?_⟩
    · rw [hrun]
      simp only [if_pos hne]
      rw [show (options.inputCoveragePaths.map Event.loadCoverageFile
            ++ [Event.logStartProgram]
            ++ [Event.runTarget (mkRunCoverageSettings options startInfo)]
            ++ exportEvents env options (finalCoverageData env options)
            ++ [Event.logExitCodeError
                  ((env.runCoverage (mkRunCoverageSettings options startInfo)).exitCode)]) =
          ((options.inputCoveragePaths.map Event.loadCoverageFile
            ++ [Event.logStartProgram]
            ++ [Event.runTarget (mkRunCoverageSettings options startInfo)]
            ++ exportEvents env options (finalCoverageData env options))
            ++ [Event.logExitCodeError
                  ((env.runCoverage (mkRunCoverageSettings options startInfo)).exitCode)])
          from by simp [List.append_assoc]]
      exact List.drop_left _ _
    · intro e he
      rw [hrun]
      simp only [if_pos hne]
      rw [show (options.inputCoveragePaths.map Event.loadCoverageFile
            ++ [Event.logStartProgram]
            ++ [Event.runTarget (mkRunCoverageSettings options startInfo)]
            ++ exportEvents env options (finalCoverageData env options)
            ++ [Event.logExitCodeError
                  ((env.runCoverage (mkRunCoverageSettings options startInfo)).exitCode)]) =
          ((options.inputCoveragePaths.map Event.loadCoverageFile
            ++ [Event.logStartProgram]
            ++ [Event.runTarget (mkRunCoverageSettings options startInfo)]
            ++ exportEvents env options (finalCoverageData env options))
            ++ [Event.logExitCodeError
                  ((env.runCoverage (mkRunCoverageSettings options startInfo)).exitCode)])
          from by simp [List.append_assoc]]
      rw [List.take_left]
      simp [exportEvents, List.mem_append]
      exact ⟨e, he, rfl, rfl⟩

/-- Witness for C5 at the concrete failing target. -/
theorem export_precedes_exit_code_check_witness :
    finalCoverageData sampleEnv targetOptions =
      (if targetOptions.aggregateByFileModeEnabled
       then MergeFileCoverage (mergeCoverageDatas
              (targetOptions.inputCoveragePaths.map sampleEnv.deserialize
                ++ [sampleEnv.runCoverage (mkRunCoverageSettings targetOptions sampleStartInfo)]))
       else mergeCoverageDatas
              (targetOptions.inputCoveragePaths.map sampleEnv.deserialize
                ++ [sampleEnv.runCoverage (mkRunCoverageSettings targetOptions sampleStartInfo)])) ∧
    (∀ e ∈ targetOptions.exports,
      Event.doExport e (exportOutput sampleEnv targetOptions e)
          (finalCoverageData sampleEnv targetOptions) ∈
        (Run sampleEnv targetOptions).1) ∧
    ((sampleEnv.runCoverage (mkRunCoverageSettings targetOptions sampleStartInfo)).exitCode ≠ 0 →
      ∃ k, (Run sampleEnv targetOptions).1.drop k =
            [Event.logExitCodeError
              ((sampleEnv.runCoverage
                  (mkRunCoverageSettings targetOptions sampleStartInfo)).exitCode)] ∧
          ∀ e ∈ targetOptions.exports,
            Event.doExport e (exportOutput sampleEnv targetOptions e)
                (finalCoverageData sampleEnv targetOptions) ∈
              (Run sampleEnv targetOptions).1.take k) :=
  export_precedes_exit_code_check sampleEnv targetOptions sampleStartInfo rfl

/-- C9: in merge-only mode (no target, at least one input snapshot) the
run deserializes and loads every input snapshot, merges them into the
final model, exports it, returns exit code 0, and launches no target
process.  (theorem for claim C9) -/
theorem merge_only_mode (env : Env) (options : Options)
    (h : options.startInfo = none) (hne : options.inputCoveragePaths ≠ []) :
    (Run env options).2 = 0 ∧
    (∀ s, Event.runTarget s ∉ (Run env options).1) ∧
    (∀ p ∈ options.inputCoveragePaths,
        Event.loadCoverageFile p ∈ (Run env options).1) ∧
    finalCoverageData env options =
      (if options.aggregateByFileModeEnabled
       then MergeFileCoverage (mergeCoverageDatas (options.inputCoveragePaths.map env.deserialize))
       else mergeCoverageDatas (options.inputCoveragePaths.map env.deserialize)) ∧
    (∀ e ∈ options.exports,
      Event.doExport e (exportOutput env options e) (finalCoverageData env options) ∈
        (Run env options).1) := by
  have hrun := run_eq_of_no_startInfo env options h
  refine ⟨by rw [hrun], ?_, ?_, ?_, ?_⟩
  · intro s hs
    rw [hrun] at hs
    simp [exportEvents, List.mem_append] at hs
  · intro p hp
    rw [hrun]
    simp [List.mem_append]
    exact Or.inl hp
  · simp only [finalCoverageData, collectedCoverageDatas, h]
  · intro e he
    rw [hrun]
    simp [exportEvents, List.mem_append]
    exact ⟨e, he, rfl, rfl⟩

/-- Witness for C9 at the concrete merge-only options. -/
theorem merge_only_mode_witness :
    (Run sampleEnv mergeOnlyOptions).2 = 0 ∧
    (∀ s, Event.runTarget s ∉ (Run sampleEnv mergeOnlyOptions).1) ∧
    (∀ p ∈ mergeOnlyOptions.inputCoveragePaths,
        Event.loadCoverageFile p ∈ (Run sampleEnv mergeOnlyOptions).1) ∧
    finalCoverageData sampleEnv mergeOnlyOptions =
      (if mergeOnlyOptions.aggregateByFileModeEnabled
       then MergeFileCoverage (mergeCoverageDatas
              (mergeOnlyOptions.inputCoveragePaths.map sampleEnv.deserialize))
       else mergeCoverageDatas
              (mergeOnlyOptions.inputCoveragePaths.map sampleEnv.deserialize)) ∧
    (∀ e ∈ mergeOnlyOptions.exports,
      Event.doExport e (exportOutput sampleEnv mergeOnlyOptions e)
          (finalCoverageData sampleEnv mergeOnlyOptions) ∈
        (Run sampleEnv mergeOnlyOptions).1) :=
  merge_only_mode sampleEnv mergeOnlyOptions rfl (by decide)

/-- Propositional reading of `cdLineHit`. -/
theorem cdLineHit_iff (cd : CoverageData) (m f : String) (n : Nat) :
    cdLineHit cd m f n = true ↔
      ∃ M ∈ cd.modules, M.path = m ∧ ∃ F ∈ M.files, F.path = f ∧
        ∃ L ∈ F.lines, L.lineNumber = n ∧ L.hasBeenExecuted = true := by
  simp [cdLineHit, List.any_eq_true]

/-- A module path of an input occurs among the merged module paths. -/
theorem mem_allModulePaths (l : List CoverageData) (cd : CoverageData)
    (M : ModuleCoverage) (hcd : cd ∈ l) (hM : M ∈ cd.modules) :
    M.path ∈ allModulePaths l := by
  rw [allModulePaths, List.mem_dedup, List.mem_flatMap]
  exact ⟨cd, hcd, List.mem_map.mpr ⟨M, hM, rfl⟩⟩

/-- A file path of an input occurs among the merged file paths of its
module. -/
theorem mem_allFilePaths (l : List CoverageData) (cd : CoverageData)
    (M : ModuleCoverage) (F : FileCoverage)
    (hcd : cd ∈ l) (hM : M ∈ cd.modules) (hF : F ∈ M.files) :
    F.path ∈ allFilePaths l M.path := by
  rw [allFilePaths, List.mem_dedup, List.mem_flatMap]
  refine ⟨cd, hcd, List.mem_flatMap.mpr ⟨M, ?_, List.mem_map.mpr ⟨F, hF, rfl⟩⟩⟩
  exact List.mem_filter.mpr ⟨hM, by simp⟩

/-- A line number of an input occurs among the merged line numbers of its
file. -/
theorem mem_allLineNumbers (l : List CoverageData) (cd : CoverageData)
    (M : ModuleCoverage) (F : FileCoverage) (L : LineCoverage)
    (hcd : cd ∈ l) (hM : M ∈ cd.modules) (hF : F ∈ M.files) (hL : L ∈ F.lines) :
    L.lineNumber ∈ allLineNumbers l M.path F.path := by
  rw [allLineNumbers, List.mem_dedup, List.mem_flatMap]
  refine ⟨cd, hcd, List.mem_flatMap.mpr ⟨M, List.mem_filter.mpr ⟨hM, by simp⟩, ?_⟩⟩
  exact List.mem_flatMap.mpr
    ⟨F, List.mem_filter.mpr ⟨hF, by simp⟩, List.mem_map.mpr ⟨L, hL, rfl⟩⟩

/-- The key merge lemma: a line is hit in the merged model exactly when it
is hit in some input. -/
theorem cdLineHit_mergeCoverageDatas (l : List CoverageData) (m f : String) (n : Nat) :
    cdLineHit (mergeCoverageDatas l) m f n = l.any fun cd => cdLineHit cd m f n := by
  rw [Bool.eq_iff_iff]
  constructor
  · intro hmerge
    rw [cdLineHit_iff] at hmerge
    obtain ⟨M, hM, hMp, F, hF, hFp, L, hL, hLn, hLh⟩ := hmerge
    simp only [mergeCoverageDatas, List.mem_map] at hM
    obtain ⟨m', _, rfl⟩ := hM
    simp only [List.mem_map] at hF
    obtain ⟨f', _, rfl⟩ := hF
    simp only [List.mem_map] at hL
    obtain ⟨n', _, rfl⟩ := hL
    simp only at hMp hFp hLn hLh
    subst hMp; subst hFp; subst hLn
    exact hLh
  · intro hany
    rw [List.any_eq_true] at hany
    obtain ⟨cd, hcd, hhit⟩ := hany
    rw [cdLineHit_iff] at hhit
    obtain ⟨M, hM, hMp, F, hF, hFp, L, hL, hLn, hLh⟩ := hhit
    rw [cdLineHit_iff]
    refine ⟨{ path := m
              files := (allFilePaths l m).map fun f' =>
                { path := f'
                  lines := (allLineNumbers l m f').map fun n' =>
                    { lineNumber := n'
                      hasBeenExecuted := l.any fun cd' => cdLineHit cd' m f' n' } } }, ?_, rfl, ?_⟩
    · simp only [mergeCoverageDatas, List.mem_map]
      exact ⟨m, hMp ▸ mem_allModulePaths l cd M hcd hM, rfl⟩
    · refine ⟨{ path := f
                lines := (allLineNumbers l m f).map fun n' =>
                  { lineNumber := n'
                    hasBeenExecuted := l.any fun cd' => cdLineHit cd' m f n' } },
        ?_, rfl, ?_⟩
      · simp only [List.mem_map]
        exact ⟨f, by
          have := mem_allFilePaths l cd M F hcd hM hF
          rw [hMp, hFp] at this
          exact this, rfl⟩
      · refine ⟨{ lineNumber := n
                  hasBeenExecuted := l.any fun cd' => cdLineHit cd' m f n }, ?_, rfl, ?_⟩
        · simp only [List.mem_map]
          exact ⟨n, by
            have := mem_allLineNumbers l cd M F L hcd hM hF hL
            rw [hMp, hFp, hLn] at this
            exact this, rfl⟩
        · rw [List.any_eq_true]
          refine ⟨cd, hcd, ?_⟩
          rw [cdLineHit_iff]
          exact ⟨M, hM, hMp, F, hF, hFp, L, hL, hLn, hLh⟩

/-- C7: per (module, file, line) hit status, `Merge` is invariant under
permutation of its inputs (commutativity), merging merged groups equals
merging the concatenated inputs (associativity), and merging a run with
itself changes nothing (idempotence).  (theorem for claim C7) -/
theorem merge_perm_assoc_idem :
    (∀ (l l' : List CoverageData), l.Perm l' → ∀ m f n,
        cdLineHit (mergeCoverageDatas l) m f n = cdLineHit (mergeCoverageDatas l') m f n) ∧
    (∀ (l₁ l₂ : List CoverageData) (m f : String) (n : Nat),
        cdLineHit (mergeCoverageDatas [mergeCoverageDatas l₁, mergeCoverageDatas l₂]) m f n =
          cdLineHit (mergeCoverageDatas (l₁ ++ l₂)) m f n) ∧
    (∀ (cd : CoverageData) (m f : String) (n : Nat),
        cdLineHit (mergeCoverageDatas [cd, cd]) m f n = cdLineHit cd m f n) := by
  refine ⟨?_, ?_, ?_⟩
  · intro l l' hperm m f n
    rw [cdLineHit_mergeCoverageDatas, cdLineHit_mergeCoverageDatas, Bool.eq_iff_iff]
    rw [List.any_eq_true, List.any_eq_true]
    constructor
    · rintro ⟨cd, hcd, hhit⟩
      exact ⟨cd, hperm.mem_iff.mp hcd, hhit⟩
    · rintro ⟨cd, hcd, hhit⟩
      exact ⟨cd, hperm.mem_iff.mpr hcd, hhit⟩
  · intro l₁ l₂ m f n
    simp [cdLineHit_mergeCoverageDatas, List.any_append]
  · intro cd m f n
    simp [cdLineHit_mergeCoverageDatas]

/-- Propositional reading of `fileLineHit`. -/
theorem fileLineHit_iff (cd : CoverageData) (f : String) (n : Nat) :
    fileLineHit cd f n = true ↔
      ∃ M ∈ cd.modules, ∃ F ∈ M.files, F.path = f ∧
        ∃ L ∈ F.lines, L.lineNumber = n ∧ L.hasBeenExecuted = true := by
  simp [fileLineHit, List.any_eq_true]

/-- A file path of `cd` occurs among its canonical file paths. -/
theorem mem_allFilePathsOf (cd : CoverageData) (M : ModuleCoverage) (F : FileCoverage)
    (hM : M ∈ cd.modules) (hF : F ∈ M.files) :
    F.path ∈ allFilePathsOf cd := by
  rw [allFilePathsOf, List.mem_dedup, List.mem_flatMap]
  exact ⟨M, hM, List.mem_map.mpr ⟨F, hF, rfl⟩⟩

/-- A line number of a file of `cd` occurs among that file's aggregated
line numbers. -/
theorem mem_fileLineNumbers (cd : CoverageData) (M : ModuleCoverage) (F : FileCoverage)
    (L : LineCoverage) (hM : M ∈ cd.modules) (hF : F ∈ M.files) (hL : L ∈ F.lines) :
    L.lineNumber ∈ fileLineNumbers cd F.path := by
  rw [fileLineNumbers, List.mem_dedup, List.mem_flatMap]
  exact ⟨M, hM, List.mem_flatMap.mpr
    ⟨F, List.mem_filter.mpr ⟨hF, by simp⟩, List.mem_map.mpr ⟨L, hL, rfl⟩⟩⟩

/-- Aggregating by file preserves every line's hit status. -/
theorem fileLineHit_MergeFileCoverage (cd : CoverageData) (f : String) (n : Nat) :
    fileLineHit (MergeFileCoverage cd) f n = fileLineHit cd f n := by
  rw [Bool.eq_iff_iff]
  constructor
  · intro hagg
    rw [fileLineHit_iff] at hagg
    obtain ⟨M, hM, F, hF, hFp, L, hL, hLn, hLh⟩ := hagg
    simp only [MergeFileCoverage, List.mem_map] at hM
    obtain ⟨f', _, rfl⟩ := hM
    simp only [List.mem_singleton] at hF
    subst hF
    simp only [List.mem_map] at hL
    obtain ⟨n', _, rfl⟩ := hL
    simp only at hFp hLn hLh
    subst hFp; subst hLn
    exact hLh
  · intro hhit
    have hsrc := hhit
    rw [fileLineHit_iff] at hsrc
    obtain ⟨M, hM, F, hF, hFp, L, hL, hLn, hLh⟩ := hsrc
    rw [fileLineHit_iff]
    refine ⟨{ path := f
              files := [{ path := f
                          lines := (fileLineNumbers cd f).map fun n' =>
                            { lineNumber := n'
                              hasBeenExecuted := fileLineHit cd f n' } }] }, ?_, ?_⟩
    · simp only [MergeFileCoverage, List.mem_map]
      exact ⟨f, hFp ▸ mem_allFilePathsOf cd M F hM hF, rfl⟩
    · refine ⟨{ path := f
                lines := (fileLineNumbers cd f).map fun n' =>
                  { lineNumber := n'
                    hasBeenExecuted := fileLineHit cd f n' } },
        List.mem_singleton.mpr rfl, rfl, ?_⟩
      refine ⟨{ lineNumber := n, hasBeenExecuted := fileLineHit cd f n }, ?_, rfl, hhit⟩
      simp only [List.mem_map]
      exact ⟨n, by
        have := mem_fileLineNumbers cd M F L hM hF hL
        rw [hFp, hLn] at this
        exact this, rfl⟩

/-- C6: the per-file aggregation is applied to the merged model exactly
when aggregate-by-file mode is enabled (every exported model is the
merged model, aggregated under that flag alone), and `MergeFileCoverage`
is strictly a view transformation: every module of its output holds
exactly one file, the canonical file paths are not repeated, and every
line's hit status is unchanged.  (theorem for claim C6) -/
theorem aggregate_by_file_policy :
    (∀ (env : Env) (options : Options) (e : OptionsExport) (out : String)
        (data : CoverageData), Event.doExport e out data ∈ (Run env options).1 →
        data = (if options.aggregateByFileModeEnabled
                then MergeFileCoverage (mergeCoverageDatas (collectedCoverageDatas env options))
                else mergeCoverageDatas (collectedCoverageDatas env options))) ∧
    (∀ (cd : CoverageData) (f : String) (n : Nat),
        fileLineHit (MergeFileCoverage cd) f n = fileLineHit cd f n) ∧
    (∀ cd : CoverageData,
        ((MergeFileCoverage cd).modules.map fun M => M.path).Nodup ∧
        ∀ M ∈ (MergeFileCoverage cd).modules,
          (M.files.map fun F => F.path) = [M.path]) := by
  refine ⟨?_, fileLineHit_MergeFileCoverage, ?_⟩
  · intro env options e out data h
    obtain ⟨-, -, hdata⟩ := doExport_mem_elim env options e out data h
    rw [hdata]
    rfl
  · intro cd
    constructor
    · have : ((MergeFileCoverage cd).modules.map fun M => M.path) = allFilePathsOf cd := by
        simp only [MergeFileCoverage, List.map_map]
        exact List.map_id _
      rw [this]
      exact List.nodup_dedup _
    · intro M hM
      simp only [MergeFileCoverage, List.mem_map] at hM
      obtain ⟨f, _, rfl⟩ := hM
      rfl

/-- Round trip of the boolean encoding. -/
theorem decodeBool_encodeBool (b : Bool) (rest : List Nat) :
    decodeBool (encodeBool b ++ rest) = some (b, rest) := by
  cases b <;> rfl

/-- Round trip of the integer encoding. -/
theorem decodeInt_encodeInt (i : Int) (rest : List Nat) :
    decodeInt (encodeInt i ++ rest) = some (i, rest) := by
  by_cases hneg : i < 0
  · have h1 : encodeInt i ++ rest = 1 :: i.natAbs :: rest := by simp [encodeInt, hneg]
    rw [h1]
    simp only [decodeInt]
    norm_num
    rw [abs_of_neg hneg]
    ring
  · have h0 : encodeInt i ++ rest = 0 :: i.natAbs :: rest := by simp [encodeInt, hneg]
    rw [h0]
    simp only [decodeInt]
    norm_num
    omega

/-- Round trip of a character-list encoding. -/
theorem decodeChars_encode (cs : List Char) (rest : List Nat) :
    decodeChars cs.length (cs.map Char.toNat ++ rest) = some (cs, rest) := by
  induction cs with
  | nil => rfl
  | cons c cs ih =>
      simp [decodeChars, ih, Char.ofNat_toNat]

/-- Round trip of the string encoding. -/
theorem decodeString_encodeString (s : String) (rest : List Nat) :
    decodeString (encodeString s ++ rest) = some (s, rest) := by
  simp only [encodeString, List.cons_append, decodeString, List.append_assoc]
  rw [decodeChars_encode]
  rfl

/-- Round trip of a counted-element decode against a flat encoding. -/
theorem decodeVec_encode (dec : List Nat → Option (α × List Nat)) (enc : α → List Nat)
    (hdec : ∀ a rest, dec (enc a ++ rest) = some (a, rest)) (l : List α) (rest : List Nat) :
    decodeVec dec l.length (l.flatMap enc ++ rest) = some (l, rest) := by
  induction l with
  | nil => rfl
  | cons a l ih =>
      simp only [List.length_cons, List.flatMap_cons, List.append_assoc, decodeVec]
      rw [hdec]
      simp [ih]

/-- Round trip of the length-prefixed list encoding. -/
theorem decodeList_encodeList (dec : List Nat → Option (α × List Nat)) (enc : α → List Nat)
    (hdec : ∀ a rest, dec (enc a ++ rest) = some (a, rest)) (l : List α) (rest : List Nat) :
    decodeList dec (encodeList enc l ++ rest) = some (l, rest) := by
  simp only [encodeList, List.cons_append, decodeList, List.append_assoc]
  exact decodeVec_encode dec enc hdec l rest

/-- Round trip of one line record. -/
theorem decodeLine_encodeLine (L : LineCoverage) (rest : List Nat) :
    decodeLine (encodeLine L ++ rest) = some (L, rest) := by
  simp only [encodeLine, List.cons_append, decodeLine]
  rw [decodeBool_encodeBool]

/-- Round trip of one file record. -/
theorem decodeFile_encodeFile (F : FileCoverage) (rest : List Nat) :
    decodeFile (encodeFile F ++ rest) = some (F, rest) := by
  simp only [encodeFile, List.append_assoc, decodeFile]
  rw [decodeString_encodeString]
  simp [decodeList_encodeList decodeLine encodeLine decodeLine_encodeLine]

/-- Round trip of one module record. -/
theorem decodeModule_encodeModule (M : ModuleCoverage) (rest : List Nat) :
    decodeModule (encodeModule M ++ rest) = some (M, rest) := by
  simp only [encodeModule, List.append_assoc, decodeModule]
  rw [decodeString_encodeString]
  simp [decodeList_encodeList decodeFile encodeFile decodeFile_encodeFile]

/-- C8: serializing a coverage model to the snapshot format and
deserializing the result reproduces the identical model: the same
modules, files, lines and hit flags.  (theorem for claim C8) -/
theorem serialization_roundtrip (cd : CoverageData) :
    deserializeCoverageData (serializeCoverageData cd) = some cd := by
  simp only [serializeCoverageData, deserializeCoverageData]
  rw [decodeInt_encodeInt]
  have h := decodeList_encodeList decodeModule encodeModule decodeModule_encodeModule
    cd.modules []
  rw [List.append_nil] at h
  simp [h]

end OpenCppCoverage
